import Mathlib

/-!
Verification of the OgarII-Render web console (class `WebConsole` in the
repository) against its natural-language specification.

The embedding below translates the state and the route handlers of the
`WebConsole` class into pure Lean functions.  Mutable instance state
(`this.history`, `this.sessions`, `this.handle.logger.print`) is passed and
returned explicitly.  JavaScript timestamps (`new Date()`) are modelled as
natural numbers (milliseconds); the subtraction `now - session.lastActivity`
is computed in `Int`, matching JavaScript number subtraction on dates.
JavaScript truthiness of a possibly missing string (`!command`,
`!token`, `!username`) is modelled by `Option String` being `none` or
`some ""`.
-/

/-- One recorded console line: `{message, type, timestamp}` objects pushed by
`addToHistory`. -/
structure HistoryEntry where
  message : String
  type : String
  timestamp : Nat
deriving Repr, DecidableEq

/-- A live session value stored in `this.sessions`:
`{username, loginTime, lastActivity}`. -/
structure Session where
  username : String
  loginTime : Nat
  lastActivity : Nat
deriving Repr, DecidableEq

/-- The session map `this.sessions : Map token Session`, modelled as an
association list in insertion order. -/
abbrev Sessions := List (String × Session)

/-- Source: `this.maxHistorySize = 100`. -/
def maxHistorySize : Nat := 100

/-- Source: the idle cutoff `24 * 60 * 60 * 1000` milliseconds used by
`cleanupSessions`. -/
def idleTimeoutMs : Int := 24 * 60 * 60 * 1000

/-- Source: the `validTypes` array inside `addToHistory`. -/
def validTypes : List String := ["command", "error", "success", "output", "info", "warning"]

/-- The entry object pushed by `addToHistory`: the stored `type` is the given
one when it is in `validTypes`, else the fallback `"info"`. -/
def mkEntry (message type : String) (now : Nat) : HistoryEntry :=
  { message := message
    type := if validTypes.contains type then type else "info"
    timestamp := now }

/-- Source method `addToHistory(message, type)`: push the (normalized) entry,
then cap the array via `this.history.slice(-this.maxHistorySize)` whenever its
length exceeds `maxHistorySize`.  `slice(-100)` keeps the last 100 elements,
embedded as dropping `length - 100` from the front. -/
def addToHistory (history : List HistoryEntry) (message type : String) (now : Nat) :
    List HistoryEntry :=
  let h := history ++ [mkEntry message type now]
  if h.length > maxHistorySize then h.drop (h.length - maxHistorySize) else h

/-- Source method `cleanupSessions()`: delete every session with
`now - session.lastActivity > 24*60*60*1000`; embedded as keeping exactly the
sessions for which that test fails. -/
def cleanupSessions (sessions : Sessions) (now : Nat) : Sessions :=
  sessions.filter (fun p => !(decide ((now : Int) - (p.2.lastActivity : Int) > idleTimeoutMs)))

/-- Source `authMiddleware`: reject (HTTP 401) when the `Authorization` header
is falsy or not a key of `this.sessions`; otherwise set the stored session
field `lastActivity` to now and let the request proceed.  `none` is the 401
rejection; `some s` is the updated session map of a request that proceeds. -/
def authMiddleware (sessions : Sessions) (token : Option String) (now : Nat) :
    Option Sessions :=
  match token with
  | none => none
  | some t =>
    if t = "" then none
    else if sessions.any (fun p => p.1 = t) then
      some (sessions.map (fun p =>
        if p.1 = t then (p.1, { p.2 with lastActivity := now }) else p))
    else none

/-- Responses of `POST /console/login`. -/
inductive LoginResult where
  /-- HTTP 400 `{success:false, error}` when a field is missing. -/
  | badRequest (error : String)
  /-- HTTP 401 `{success:false, error}` on a credential mismatch. -/
  | invalidCred (error : String)
  /-- HTTP 200 `{success:true, token}`. -/
  | ok (token : String)
deriving Repr, DecidableEq

/-- Source handler for `POST /console/login`.  `cred` is the fixed
`this.credentials` pair (username, password); `newToken` models the fresh
`crypto.randomBytes(32).toString(hex)` value.  The handler checks field
presence, compares both fields against the stored pair, and on a match inserts
the session and runs `cleanupSessions`. -/
def loginHandler (cred : String × String) (sessions : Sessions)
    (username password : Option String) (newToken : String) (now : Nat) :
    LoginResult × Sessions :=
  match username, password with
  | some u, some p =>
    if u = "" ∨ p = "" then
      (.badRequest "Username and password required", sessions)
    else if u = cred.1 ∧ p = cred.2 then
      let sessions := sessions ++ [(newToken,
        { username := u, loginTime := now, lastActivity := now })]
      (.ok newToken, cleanupSessions sessions now)
    else
      (.invalidCred "Invalid credentials", sessions)
  | _, _ => (.badRequest "Username and password required", sessions)

/-- Responses of the simple protected routes. -/
inductive SimpleResponse where
  /-- HTTP 401 `{error: Unauthorized}` produced by `authMiddleware`. -/
  | unauthorized
  /-- HTTP 200 `{success:true}`. -/
  | success
deriving Repr, DecidableEq

/-- Source route `POST /console/logout`: it is registered behind
`authMiddleware`; the handler itself deletes the token from `this.sessions`
when the header is truthy and replies `{success:true}`. -/
def logoutRoute (sessions : Sessions) (token : Option String) (now : Nat) :
    SimpleResponse × Sessions :=
  match authMiddleware sessions token now with
  | none => (.unauthorized, sessions)
  | some sessions' =>
    let sessions'' := match token with
      | some t => if t = "" then sessions' else sessions'.filter (fun p => p.1 ≠ t)
      | none => sessions'
    (.success, sessions'')

/-- Response of `POST /console/clear-history`:
`{success:true, message, cleared}`. -/
structure ClearResponse where
  success : Bool
  message : String
  cleared : Nat
deriving Repr, DecidableEq

/-- Source handler body of `POST /console/clear-history` (after
`authMiddleware`): read `this.history.length`, reset `this.history` to `[]`,
append one entry through `addToHistory(..., info)`, and reply with the
previous size. -/
def clearHistoryHandler (history : List HistoryEntry) (now : Nat) :
    ClearResponse × List HistoryEntry :=
  let previousSize := history.length
  let cleared : List HistoryEntry := []
  let history' := addToHistory cleared
    ("Console history cleared (" ++ toString previousSize ++ " entries removed)") "info" now
  ({ success := true
     message := "Cleared " ++ toString previousSize ++ " history entries"
     cleared := previousSize }, history')

/-- The process-wide output sink `this.handle.logger.print`.  `base` is
whatever function was installed before the handler ran; `wrap s` is the
capturing closure the command handler installs over the previous sink `s`
(it pushes each message to the local `output` array and forwards to `s`). -/
inductive Sink where
  | base : Sink
  | wrap : Sink → Sink
deriving Repr, DecidableEq

/-- Outcome of the external Command Registry call
`this.handle.commands.execute(null, command)` while the capturing sink is
installed: either it returns normally having emitted `output` through the
sink, or it throws an error whose message is `err`. -/
inductive RegistryResult where
  | ok (output : List String)
  | fault (err : String)
deriving Repr, DecidableEq

/-- Responses of `POST /console/command`: both arms are HTTP 200. -/
inductive CommandResponse where
  /-- `{success:true, output}`. -/
  | success (output : List String)
  /-- `{success:false, error}`. -/
  | failure (error : String)
deriving Repr, DecidableEq

/-- Source handler body of `POST /console/command` (after `authMiddleware`),
lines 95-127 of the session console (and identically lines 28-60 of the older
console).  Faithful control flow: reject a falsy `command`; save
`originalPrint`; install the wrapper; call the registry; on normal return
restore `originalPrint`, record the `command` entry and one `output` entry per
line, and reply with the lines (or a placeholder when none); on a throw the
`catch` block records one `error` entry and replies failure - the assignment
restoring `originalPrint` is on the success path only, so the wrapper stays
installed.  Returns (response, history, sink installed afterwards). -/
def commandHandler (history : List HistoryEntry) (sink : Sink)
    (registry : String → RegistryResult) (command : Option String) (now : Nat) :
    CommandResponse × List HistoryEntry × Sink :=
  match command with
  | none => (.failure "No command provided", history, sink)
  | some cmd =>
    if cmd = "" then (.failure "No command provided", history, sink)
    else
      let originalPrint := sink
      let installed := Sink.wrap originalPrint
      match registry cmd with
      | .ok output =>
        let restored := originalPrint
        let h₁ := addToHistory history ("@ " ++ cmd) "command" now
        let h₂ := output.foldl (fun h line => addToHistory h line "output" now) h₁
        (.success (if output.length > 0 then output else ["Command executed successfully"]),
          h₂, restored)
      | .fault err =>
        let h₁ := addToHistory history ("Error executing command: " ++ err) "error" now
        (.failure err, h₁, installed)

/-- Suffix of the last `n` elements of a list, the meaning of the JavaScript
`slice(-n)` used by `addToHistory`. -/
def lastN (n : Nat) (l : List α) : List α := l.drop (l.length - n)

/-- Appending a batch of `(message, type, timestamp)` triples through
`addToHistory`, left to right, as the route handlers do over time. -/
def appendMany (init : List HistoryEntry) (appends : List (String × String × Nat)) :
    List HistoryEntry :=
  appends.foldl (fun h a => addToHistory h a.1 a.2.1 a.2.2) init

theorem lastN_eq_reverse_take (n : Nat) (l : List α) :
    lastN n l = (l.reverse.take n).reverse := by
  rw [List.take_reverse, List.reverse_reverse]
  rfl

theorem take_append_take (n : Nat) (a b : List α) :
    (a ++ b.take n).take n = (a ++ b).take n := by
  rw [List.take_append_eq_append_take, List.take_append_eq_append_take, List.take_take]
  congr 2
  exact Nat.min_eq_left (Nat.sub_le n a.length)

theorem lastN_append_lastN (n : Nat) (l l' : List α) :
    lastN n (lastN n l ++ l') = lastN n (l ++ l') := by
  rw [lastN_eq_reverse_take n (lastN n l ++ l'), lastN_eq_reverse_take n (l ++ l'),
    lastN_eq_reverse_take n l, List.reverse_append, List.reverse_reverse,
    List.reverse_append, take_append_take]

theorem lastN_append_of_le (n : Nat) (a b : List α) (hb : n ≤ b.length) :
    lastN n (a ++ b) = lastN n b := by
  rw [lastN_eq_reverse_take n (a ++ b), lastN_eq_reverse_take n b, List.reverse_append,
    List.take_append_of_le_length (by simpa using hb)]

theorem length_lastN_of_le (n : Nat) (l : List α) (h : n ≤ l.length) :
    (lastN n l).length = n := by
  simp only [lastN, List.length_drop]
  omega

theorem addToHistory_eq_lastN (h : List HistoryEntry) (m t : String) (now : Nat) :
    addToHistory h m t now = lastN maxHistorySize (h ++ [mkEntry m t now]) := by
  simp only [addToHistory, lastN]
  split
  · rfl
  · next hle =>
    rw [Nat.sub_eq_zero_of_le (Nat.le_of_not_lt hle), List.drop_zero]

theorem length_addToHistory_le (h : List HistoryEntry) (m t : String) (now : Nat) :
    (addToHistory h m t now).length ≤ maxHistorySize := by
  simp only [addToHistory]
  split
  · next hgt =>
    rw [List.length_drop, Nat.sub_sub_self (Nat.le_of_lt hgt)]
  · next hle =>
    exact Nat.le_of_not_lt hle

theorem appendMany_eq_lastN (appends : List (String × String × Nat))
    (init : List HistoryEntry) (hinit : init.length ≤ maxHistorySize) :
    appendMany init appends =
      lastN maxHistorySize (init ++ appends.map (fun a => mkEntry a.1 a.2.1 a.2.2)) := by
  induction appends generalizing init with
  | nil =>
    simp only [appendMany, List.foldl_nil, List.map_nil, List.append_nil, lastN,
      Nat.sub_eq_zero_of_le hinit, List.drop_zero]
  | cons a as ih =>
    have step : appendMany init (a :: as) = appendMany (addToHistory init a.1 a.2.1 a.2.2) as := rfl
    rw [step, ih _ (length_addToHistory_le init a.1 a.2.1 a.2.2),
      addToHistory_eq_lastN, lastN_append_lastN, List.append_assoc]
    rfl

/-- C5: after a sequence of M > 100 appends through `addToHistory` (starting
from any buffer within the cap), the buffer holds exactly 100 entries, equal
to the last 100 appended entries in insertion order; moreover no single append
ever leaves the buffer above the cap of 100. -/
theorem history_cap (init : List HistoryEntry) (appends : List (String × String × Nat))
    (hinit : init.length ≤ maxHistorySize) (hM : appends.length > 100) :
    (appendMany init appends).length = 100 ∧
    appendMany init appends =
      lastN 100 (appends.map (fun a => mkEntry a.1 a.2.1 a.2.2)) ∧
    ∀ (h : List HistoryEntry) (m t : String) (n : Nat),
      (addToHistory h m t n).length ≤ 100 := by
  have hlen : 100 ≤ (appends.map (fun a => mkEntry a.1 a.2.1 a.2.2)).length := by
    rw [List.length_map]
    omega
  have heq : appendMany init appends =
      lastN 100 (appends.map (fun a => mkEntry a.1 a.2.1 a.2.2)) := by
    rw [appendMany_eq_lastN appends init hinit]
    exact lastN_append_of_le maxHistorySize init _ hlen
  refine ⟨?_, heq, fun h m t n => length_addToHistory_le h m t n⟩
  rw [heq]
  exact length_lastN_of_le 100 _ hlen

/-- Witness for C5 at a concrete run of 101 appends onto an empty buffer. -/
theorem history_cap_witness :
    (appendMany [] (List.replicate 101 ("m", "info", 0))).length = 100 :=
  (history_cap [] (List.replicate 101 ("m", "info", 0)) (by decide) (by decide)).1

/-- C6: a missing or empty command is rejected with the validation failure
`{success:false, error: No command provided}` and the handler leaves the
history buffer (and the sink) untouched: no entry of any kind is appended. -/
theorem empty_command_rejected (history : List HistoryEntry) (sink : Sink)
    (registry : String → RegistryResult) (now : Nat) :
    commandHandler history sink registry none now =
      (.failure "No command provided", history, sink) ∧
    commandHandler history sink registry (some "") now =
      (.failure "No command provided", history, sink) := by
  exact ⟨rfl, rfl⟩

/-- C7: clearing a history buffer of size k reports k as the cleared count and
leaves the buffer holding exactly one new `info` entry noting the removal, so
a subsequent read of `this.history` returns only that entry. -/
theorem clearHistory_spec (history : List HistoryEntry) (now : Nat) :
    (clearHistoryHandler history now).1.cleared = history.length ∧
    (clearHistoryHandler history now).1.success = true ∧
    (clearHistoryHandler history now).2 =
      [{ message := "Console history cleared (" ++ toString history.length ++ " entries removed)"
         type := "info"
         timestamp := now }] := by
  exact ⟨rfl, rfl, rfl⟩

theorem mkEntry_type_of_mem (m t : String) (now : Nat) (ht : t ∈ validTypes) :
    (mkEntry m t now).type = t := by
  have hc : validTypes.contains t = true := by simpa [List.contains] using ht
  show (if validTypes.contains t = true then t else "info") = t
  rw [hc]
  rfl

theorem mkEntry_type_of_not_mem (m t : String) (now : Nat) (ht : t ∉ validTypes) :
    (mkEntry m t now).type = "info" := by
  have hc : validTypes.contains t = false := by simpa [List.contains] using ht
  show (if validTypes.contains t = true then t else "info") = "info"
  rw [hc]
  rfl

theorem mkEntry_type_valid (m t : String) (now : Nat) :
    (mkEntry m t now).type ∈ validTypes := by
  by_cases ht : t ∈ validTypes
  · rw [mkEntry_type_of_mem m t now ht]
    exact ht
  · rw [mkEntry_type_of_not_mem m t now ht]
    decide

/-- C10: every entry built by `addToHistory` stores a kind from `validTypes`;
a kind outside the set is normalized to `info`, one inside is kept; hence a
buffer all of whose entries have valid kinds still has only valid kinds after
any append. -/
theorem kind_normalized (h : List HistoryEntry) (m t : String) (now : Nat) :
    (mkEntry m t now).type ∈ validTypes ∧
    (t ∉ validTypes → (mkEntry m t now).type = "info") ∧
    (t ∈ validTypes → (mkEntry m t now).type = t) ∧
    ((∀ e ∈ h, e.type ∈ validTypes) → ∀ e ∈ addToHistory h m t now, e.type ∈ validTypes) := by
  refine ⟨mkEntry_type_valid m t now, mkEntry_type_of_not_mem m t now,
    mkEntry_type_of_mem m t now, ?_⟩
  intro hall e he
  rw [addToHistory_eq_lastN] at he
  have he' : e ∈ h ++ [mkEntry m t now] := List.drop_subset _ _ he
  rcases List.mem_append.mp he' with hh | hk
  · exact hall e hh
  · have heq : e = mkEntry m t now := by simpa using hk
    subst heq
    exact mkEntry_type_valid m t now

/-- Witness for C10: a bogus kind is stored as `info`. -/
theorem kind_normalized_witness : (mkEntry "hello" "bogus" 0).type = "info" :=
  (kind_normalized [] "hello" "bogus" 0).2.1 (by decide)

/-- C1 (claim contradicted by the source): when the registry call throws, the
handler leaves the capturing wrapper installed on the shared sink - the
assignment restoring `originalPrint` sits on the success path only, so the
fault is handled with the stale wrapper still in place and a subsequent
capture observes the wrapper rather than the pre-capture sink.  Evaluated at
the concrete failing input: command "massclear" with a registry that throws. -/
theorem sink_stale_after_fault :
    (commandHandler [] Sink.base (fun _ => .fault "boom") (some "massclear") 0).2.2 =
      Sink.wrap Sink.base ∧
    Sink.wrap Sink.base ≠ Sink.base := by
  exact ⟨rfl, by decide⟩

/-- C2 counterexample: for the non-empty command "x" whose registry call
throws, the history afterwards holds exactly one `error` entry and no entry of
kind `command`, refuting that a `command` entry is recorded before execution
regardless of outcome. -/
theorem command_entry_missing_on_fault :
    (commandHandler [] Sink.base (fun _ => .fault "boom") (some "x") 0).2.1 =
      [{ message := "Error executing command: boom", type := "error", timestamp := 0 }] ∧
    (∀ e ∈ (commandHandler [] Sink.base (fun _ => .fault "boom") (some "x") 0).2.1,
      e.type ≠ "command") := by
  decide

/-- C2 amended: for every non-empty command, when the Registry returns
normally the handler appends one `command` entry carrying the command text and
then one `output` entry per captured line (after, not before, the execution);
when the Registry throws, no `command` entry is appended - only the single
`error` entry. -/
theorem command_entry_recorded (history : List HistoryEntry) (sink : Sink)
    (registry : String → RegistryResult) (cmd : String) (hc : cmd ≠ "") (now : Nat) :
    (∀ output, registry cmd = .ok output →
      (commandHandler history sink registry (some cmd) now).2.1 =
        output.foldl (fun h line => addToHistory h line "output" now)
          (addToHistory history ("@ " ++ cmd) "command" now)) ∧
    (∀ err, registry cmd = .fault err →
      (commandHandler history sink registry (some cmd) now).2.1 =
        addToHistory history ("Error executing command: " ++ err) "error" now) := by
  constructor
  · intro output hok
    simp only [commandHandler, if_neg hc, hok]
  · intro err hfault
    simp only [commandHandler, if_neg hc, hfault]

/-- Witness for C2 amended: registry emitting lines A and B for command st. -/
theorem command_entry_recorded_witness :
    (commandHandler [] Sink.base (fun _ => .ok ["A", "B"]) (some "st") 0).2.1 =
      ["A", "B"].foldl (fun h line => addToHistory h line "output" 0)
        (addToHistory [] ("@ " ++ "st") "command" 0) :=
  (command_entry_recorded [] Sink.base (fun _ => .ok ["A", "B"]) "st" (by decide) 0).1
    ["A", "B"] rfl

/-- C3 counterexample: a token whose session has been idle for 25 hours (over
the 24-hour timeout) is still accepted by the authorization check as long as
no sweep has removed it from the store, instead of being rejected with
Unauthorized. -/
theorem expired_token_accepted :
    ((90000000 : Int) - ((0 : Nat) : Int) > idleTimeoutMs) ∧
    authMiddleware [("tok", { username := "admin", loginTime := 0, lastActivity := 0 })]
      (some "tok") 90000000 ≠ none := by
  decide

/-- C3 amended: a missing or unknown token is rejected with Unauthorized; an
idle-expired session is rejected only once a sweep has removed it: when every
session bound to the token has exceeded the idle timeout at time now, the
check run after `cleanupSessions` (as a login triggers it) returns
Unauthorized.  The check by itself never tests idle time. -/
theorem authorize_rejections (sessions : Sessions) (t : String) (now : Nat)
    (hexp : ∀ p ∈ sessions, p.1 = t →
      (now : Int) - (p.2.lastActivity : Int) > idleTimeoutMs) :
    authMiddleware sessions none now = none ∧
    ((∀ p ∈ sessions, p.1 ≠ t) → authMiddleware sessions (some t) now = none) ∧
    authMiddleware (cleanupSessions sessions now) (some t) now = none := by
  refine ⟨rfl, ?_, ?_⟩
  · intro hunk
    simp only [authMiddleware]
    by_cases ht : t = ""
    · rw [if_pos ht]
    · rw [if_neg ht]
      have hany : sessions.any (fun p => p.1 = t) = false := by
        simp only [List.any_eq_false, decide_eq_true_eq]
        exact hunk
      rw [hany]
      rfl
  · simp only [authMiddleware]
    by_cases ht : t = ""
    · rw [if_pos ht]
    · rw [if_neg ht]
      have hany : (cleanupSessions sessions now).any (fun p => p.1 = t) = false := by
        simp only [List.any_eq_false, decide_eq_true_eq]
        intro p hp hpt
        rw [cleanupSessions, List.mem_filter] at hp
        have h1 := hexp p hp.1 hpt
        have h2 := hp.2
        simp only [Bool.not_eq_eq_eq_not, Bool.not_true, decide_eq_false_iff_not] at h2
        exact h2 h1
      rw [hany]
      rfl

/-- Witness for C3 amended: a single session idle 25 hours is swept and its
token then rejected. -/
theorem authorize_rejections_witness :
    authMiddleware
      (cleanupSessions [("tok", { username := "admin", loginTime := 0, lastActivity := 0 })]
        90000000)
      (some "tok") 90000000 = none :=
  (authorize_rejections [("tok", { username := "admin", loginTime := 0, lastActivity := 0 })]
    "tok" 90000000 (by decide)).2.2

/-- C4 counterexample: the logout route is registered behind `authMiddleware`,
so a request with an absent token is rejected with Unauthorized instead of
succeeding as already-logged-out; an unknown token is likewise rejected. -/
theorem logout_unauthorized_on_absent_token :
    (logoutRoute [("tok", { username := "admin", loginTime := 0, lastActivity := 0 })]
      none 0).1 = SimpleResponse.unauthorized ∧
    (logoutRoute [] (some "ghost") 0).1 = SimpleResponse.unauthorized := by
  exact ⟨rfl, rfl⟩

/-- C4 amended: for a token bound in the session store, logout replies
`{success:true}` and removes every binding of that token; a request with an
absent token is rejected with Unauthorized by the auth check before the
logout handler runs. -/
theorem logout_spec (sessions : Sessions) (t : String) (now : Nat) (ht : t ≠ "")
    (hmem : sessions.any (fun p => p.1 = t) = true) :
    (logoutRoute sessions (some t) now).1 = SimpleResponse.success ∧
    (∀ p ∈ (logoutRoute sessions (some t) now).2, p.1 ≠ t) ∧
    (logoutRoute sessions none now).1 = SimpleResponse.unauthorized := by
  have hauth : authMiddleware sessions (some t) now =
      some (sessions.map (fun p =>
        if p.1 = t then (p.1, { p.2 with lastActivity := now }) else p)) := by
    simp only [authMiddleware]
    rw [if_neg ht, hmem]
    rfl
  refine ⟨?_, ?_, rfl⟩
  · simp only [logoutRoute, hauth, if_neg ht]
  · intro p hp
    simp only [logoutRoute, hauth, if_neg ht] at hp
    rw [List.mem_filter] at hp
    simpa using hp.2

/-- Witness for C4 amended at a store holding the token tok. -/
theorem logout_spec_witness :
    (logoutRoute [("tok", { username := "admin", loginTime := 0, lastActivity := 0 })]
      (some "tok") 5).1 = SimpleResponse.success :=
  (logout_spec [("tok", { username := "admin", loginTime := 0, lastActivity := 0 })]
    "tok" 5 (by decide) (by decide)).1

/-- C8: a sweep at time now removes a stored session exactly when
`now - lastActivity` exceeds the 24-hour idle timeout: a session stays in the
swept store if and only if it is within the timeout. -/
theorem sweep_iff (sessions : Sessions) (now : Nat) (p : String × Session)
    (hp : p ∈ sessions) :
    p ∈ cleanupSessions sessions now ↔
      ¬ ((now : Int) - (p.2.lastActivity : Int) > idleTimeoutMs) := by
  simp only [cleanupSessions, List.mem_filter]
  constructor
  · intro h
    simpa using h.2
  · intro h
    refine ⟨hp, ?_⟩
    simpa using h

/-- Witness for C8: a session within the timeout survives the sweep. -/
theorem sweep_iff_witness :
    (("fresh", { username := "u", loginTime := 0, lastActivity := 89000000 }) ∈
      cleanupSessions
        [("fresh", { username := "u", loginTime := 0, lastActivity := 89000000 })]
        90000000) ↔
      ¬ ((90000000 : Int) - ((89000000 : Nat) : Int) > idleTimeoutMs) :=
  sweep_iff [("fresh", { username := "u", loginTime := 0, lastActivity := 89000000 })]
    90000000 ("fresh", { username := "u", loginTime := 0, lastActivity := 89000000 })
    (by decide)

/-- C9 counterexample: with the fixed pair (admin, hunter2), the failing pair
with an empty username gets the 400 response `Username and password required`
while the failing pair (y, x) gets the 401 response `Invalid credentials`:
two credential pairs that both fail to match can receive different error
responses. -/
theorem login_error_responses_differ :
    (¬ ("" = "admin" ∧ "x" = "hunter2")) ∧
    (¬ ("y" = "admin" ∧ "x" = "hunter2")) ∧
    (loginHandler ("admin", "hunter2") [] (some "") (some "x") "t" 0).1 ≠
      (loginHandler ("admin", "hunter2") [] (some "y") (some "x") "t" 0).1 := by
  decide

/-- C9 amended: restricted to credential pairs whose two fields are present
and non-empty, every pair failing to match the fixed pair receives one and the
same response - 401 with message `Invalid credentials` - so the response does
not reveal which field was wrong. -/
theorem login_mismatch_uniform (cred : String × String) (sessions : Sessions)
    (u₁ p₁ u₂ p₂ : String) (newToken : String) (now : Nat)
    (hu₁ : u₁ ≠ "") (hp₁ : p₁ ≠ "") (hu₂ : u₂ ≠ "") (hp₂ : p₂ ≠ "")
    (hm₁ : ¬ (u₁ = cred.1 ∧ p₁ = cred.2)) (hm₂ : ¬ (u₂ = cred.1 ∧ p₂ = cred.2)) :
    (loginHandler cred sessions (some u₁) (some p₁) newToken now).1 =
      LoginResult.invalidCred "Invalid credentials" ∧
    (loginHandler cred sessions (some u₁) (some p₁) newToken now).1 =
      (loginHandler cred sessions (some u₂) (some p₂) newToken now).1 := by
  have h1 : (loginHandler cred sessions (some u₁) (some p₁) newToken now).1 =
      LoginResult.invalidCred "Invalid credentials" := by
    simp only [loginHandler, if_neg (not_or.mpr ⟨hu₁, hp₁⟩), if_neg hm₁]
  have h2 : (loginHandler cred sessions (some u₂) (some p₂) newToken now).1 =
      LoginResult.invalidCred "Invalid credentials" := by
    simp only [loginHandler, if_neg (not_or.mpr ⟨hu₂, hp₂⟩), if_neg hm₂]
  exact ⟨h1, h1.trans h2.symm⟩

/-- Witness for C9 amended: a wrong username with a wrong password is answered
with `Invalid credentials`. -/
theorem login_mismatch_uniform_witness :
    (loginHandler ("admin", "hunter2") [] (some "y") (some "x") "t" 0).1 =
      LoginResult.invalidCred "Invalid credentials" :=
  (login_mismatch_uniform ("admin", "hunter2") [] "y" "x" "z" "w" "t" 0
    (by decide) (by decide) (by decide) (by decide) (by decide) (by decide)).1
